import Mathlib

/-
Verification development for the pre-commit-go check orchestration engine.

The definitions below are shallow embeddings of the Go sources:
  - src/checks/config.go        (Mode, Config, Settings, Checks, EnabledChecks, New)
  - src/unnamed/part_000        (definitions package: CheckPrerequisite.IsPresent)
  - src/unnamed/part_002        (main package: run, callRun, installPrereq)

Modelling conventions:
  - Go maps are embedded as association lists.  Go map iteration order is
    unspecified; wherever the embedded code iterates a map we fix the textual
    order of the source literal.  Every theorem that depends on map contents is
    order-insensitive (membership, counts, sorted output) except where noted.
  - Go `int` is embedded as `Int`; `time.Duration` (int64 nanoseconds) as `Nat`
    nanosecond counts compared in `Int`.
  - `float64` configuration fields (coverage percentages) only ever hold the
    exactly representable integral literals 0, 50, 100 from the defaults, so
    they are embedded as `Int`.
  - Fallible Go functions returning `error` are embedded in `Except String` /
    `Option String`; the text of an error is reproduced where a claim depends
    on it.
  - External processes (probe commands, `go get`) are abstracted as explicit
    function parameters supplying their observable results.
-/

namespace PreCommitGo

/-! ## Mode (src/checks/config.go lines 17-47) -/

/-- Go: `type Mode string`. -/
abbrev Mode := String

def PreCommit : Mode := "pre-commit"

def PrePush : Mode := "pre-push"

def ContinuousIntegration : Mode := "continuous-integration"

def Lint : Mode := "lint"

/-- Go: `var AllModes = []Mode{PreCommit, PrePush, ContinuousIntegration, Lint}`. -/
def AllModes : List Mode := [PreCommit, PrePush, ContinuousIntegration, Lint]

/-- Error text of `fmt.Errorf("invalid mode \"%s\"", val)` in Mode.UnmarshalYAML. -/
def invalidModeMsg (s : String) : String := "invalid mode \"" ++ s ++ "\""

/-- Mode.UnmarshalYAML (config.go lines 34-47), applied to the string `s` the
yaml library decoded.  The Go loop `for _, known := range AllModes { if val ==
known { *m = val; return nil } }` assigns `val = Mode(s)` exactly when `s` is a
member of `AllModes`, and otherwise reports the invalid-mode error. -/
def Mode.unmarshalYAML (s : String) : Except String Mode :=
  if s ∈ AllModes then Except.ok s else Except.error (invalidModeMsg s)

/-! ## Checks and configuration (src/checks/config.go lines 49-117) -/

/-- definitions.CoverageSettings as used by config.go New (MinCoverage,
MaxCoverage; Go float64 holding integral defaults, embedded as Int). -/
structure CoverageSettings where
  minCoverage : Int
  maxCoverage : Int
deriving DecidableEq

/-- The concrete check variants instantiated by `New` in config.go, each
carrying exactly the configuration fields the source literal sets:
build.ExtraArgs, test.ExtraArgs, Coverage.{UseCoveralls, Global, PerDirDefault,
PerDir}, errcheck.Ignores, golint.Blacklist, govet.Blacklist; gofmt and
goimports have no fields. -/
inductive Check where
  | build (extraArgs : List String)
  | gofmt
  | test (extraArgs : List String)
  | goimports
  | coverage (useCoveralls : Bool) (global : CoverageSettings)
      (perDirDefault : CoverageSettings) (perDir : List (String × CoverageSettings))
  | errcheck (ignores : String)
  | golint (blacklist : List String)
  | govet (blacklist : List String)
deriving DecidableEq

/-- Settings (config.go lines 79-87): the per-mode check map (`Checks` is
`map[string][]Check`, embedded as an association list) and MaxDuration (Go
int, seconds). -/
structure Settings where
  checks : List (String × List Check)
  maxDuration : Int
deriving DecidableEq

/-- Config (config.go lines 49-62); `Modes` is `map[Mode]Settings`, embedded
as an association list. -/
structure Config where
  minVersion : String
  modes : List (Mode × Settings)
  ignorePatterns : List String

/-- Indexing `c.Modes[mode]` in Go: a missing key yields the zero value of
Settings, i.e. an empty check map and MaxDuration 0. -/
def Config.modeSettings (c : Config) (m : Mode) : Settings :=
  (c.modes.lookup m).getD ⟨[], 0⟩

/-- The loop body of EnabledChecks (config.go lines 68-75) for one mode:
`for _, checks := range c.Modes[mode].Checks { out = append(out, checks...) }`
followed by `if c.Modes[mode].MaxDuration > max { max = ... }`. -/
def enabledStep (c : Config) (acc : List Check × Int) (mode : Mode) : List Check × Int :=
  ((c.modeSettings mode).checks.foldl (fun out kv => out ++ kv.2) acc.1,
   if (c.modeSettings mode).maxDuration > acc.2
   then (c.modeSettings mode).maxDuration else acc.2)

/-- Config.EnabledChecks (config.go lines 65-77): starting from `out = []`,
`max = 0`, fold the per-mode loop body over the requested modes. -/
def Config.EnabledChecks (c : Config) (modes : List Mode) : List Check × Int :=
  modes.foldl (enabledStep c) ([], 0)

/-- All check instances of one mode's Settings, in the fixed association-list
order: the inner loop of EnabledChecks run on its own. -/
def Settings.allChecks (s : Settings) : List Check :=
  s.checks.foldl (fun out kv => out ++ kv.2) []

/-- New (config.go lines 120-228): the default Config, transcribed field by
field from the source literal, association lists in source-literal order. -/
def New (v : String) : Config :=
  { minVersion := v
    modes :=
      [(PreCommit,
        { checks :=
            [("build", [Check.build []]),
             ("gofmt", [Check.gofmt]),
             ("test", [Check.test (["-short"])])]
          maxDuration := 5 }),
       (PrePush,
        { checks :=
            [("goimports", [Check.goimports]),
             ("coverage", [Check.coverage false ⟨50, 100⟩ ⟨0, 0⟩ []]),
             ("test", [Check.test (["-v", "-race"])])]
          maxDuration := 15 }),
       (ContinuousIntegration,
        { checks :=
            [("build", [Check.build []]),
             ("gofmt", [Check.gofmt]),
             ("goimports", [Check.goimports]),
             ("coverage", [Check.coverage true ⟨50, 100⟩ ⟨0, 0⟩ []]),
             ("test", [Check.test (["-v", "-race"])])]
          maxDuration := 120 }),
       (Lint,
        { checks :=
            [("errcheck", [Check.errcheck ("Close")]),
             ("golint", [Check.golint []]),
             ("govet", [Check.govet ([" composite literal uses unkeyed fields"])])]
          maxDuration := 15 })]
    ignorePatterns := [".*", "_*", "*.pb.go"] }

/-! ## Checks.UnmarshalYAML (src/checks/config.go lines 93-117)

The function body is embedded generically: the yaml library's
`yaml.Marshal`/`yaml.Unmarshal` round trip and the `KnownChecks` registry
(declared in a file of the checks package that is not part of the sources at
hand; the spec describes it as a mapping from check-type name to a
zero-argument constructor returning a fresh default-initialized instance) are
passed in as parameters.  `CheckV` is the decoded check type, `RawData` the
type of one raw per-check configuration block (`map[string]interface{}` in
Go), `Bytes` the serialized form produced by `yaml.Marshal`. -/

/-- Error text of `fmt.Errorf("unknown check \"%s\"", checkTypeName)`. -/
def unknownCheckMsg (s : String) : String := "unknown check \"" ++ s ++ "\""

/-- The inner loop of Checks.UnmarshalYAML over the raw blocks of one
check-type name: for each block, `yaml.Marshal` it back to bytes, construct a
fresh instance with the registry factory, and `yaml.Unmarshal` the bytes onto
that instance; any error aborts the whole decode. -/
def decodeBlocks {CheckV RawData Bytes : Type} (factory : Unit → CheckV)
    (marshal : RawData → Except String Bytes)
    (applyCfg : Bytes → CheckV → Except String CheckV) :
    List RawData → Except String (List CheckV)
  | [] => Except.ok []
  | b :: bs =>
    match marshal b with
    | Except.error e => Except.error e
    | Except.ok raw =>
      match applyCfg raw (factory ()) with
      | Except.error e => Except.error e
      | Except.ok check =>
        match decodeBlocks factory marshal applyCfg bs with
        | Except.error e => Except.error e
        | Except.ok rest => Except.ok (check :: rest)

/-- `(*c)[checkTypeName] = append((*c)[checkTypeName], check)` on the
association-list embedding of the output map. -/
def appendEntry {CheckV : Type} (m : List (String × List CheckV)) (k : String)
    (v : CheckV) : List (String × List CheckV) :=
  match m with
  | [] => [(k, [v])]
  | (k', vs) :: rest =>
    if k' = k then (k', vs ++ [v]) :: rest else (k', vs) :: appendEntry rest k v

/-- One iteration of the outer loop of Checks.UnmarshalYAML: look the
check-type name up in the registry (failing with the unknown-check error when
absent), decode every raw block under it, and append the decoded checks to the
output map. -/
def checksDecodeStep {CheckV RawData Bytes : Type}
    (knownChecks : List (String × (Unit → CheckV)))
    (marshal : RawData → Except String Bytes)
    (applyCfg : Bytes → CheckV → Except String CheckV)
    (acc : List (String × List CheckV)) (entry : String × List RawData) :
    Except String (List (String × List CheckV)) :=
  match List.lookup entry.1 knownChecks with
  | none => Except.error (unknownCheckMsg entry.1)
  | some factory =>
    match decodeBlocks factory marshal applyCfg entry.2 with
    | Except.error e => Except.error e
    | Except.ok cs => Except.ok (cs.foldl (fun m c => appendEntry m entry.1 c) acc)

/-- Checks.UnmarshalYAML (config.go lines 93-117), applied to the already
yaml-decoded `encoded : map[string][]map[string]interface{}` (the initial
`unmarshal(&encoded)` step belongs to the yaml library). -/
def checksUnmarshalYAML {CheckV RawData Bytes : Type}
    (knownChecks : List (String × (Unit → CheckV)))
    (marshal : RawData → Except String Bytes)
    (applyCfg : Bytes → CheckV → Except String CheckV)
    (encoded : List (String × List RawData)) :
    Except String (List (String × List CheckV)) :=
  encoded.foldlM (checksDecodeStep knownChecks marshal applyCfg) []

/-! ## Prerequisite resolution (src/unnamed/part_000 lines 19-29 and
src/unnamed/part_002 lines 152-206) -/

/-- definitions.CheckPrerequisite (part_000 lines 19-23). -/
structure CheckPrerequisite where
  helpCommand : List String
  expectedExitCode : Int
  url : String
deriving DecidableEq

/-- CheckPrerequisite.IsPresent (part_000 lines 26-29):
`_, exitCode, _ := internal.Capture("", nil, c.HelpCommand...); return exitCode
== c.ExpectedExitCode`.  The external probe execution is abstracted as `exec`,
mapping a command line to the observed exit code (a failure to execute the
command at all surfaces as an exit code distinct from any successful one). -/
def CheckPrerequisite.IsPresent (c : CheckPrerequisite)
    (exec : List String → Int) : Bool :=
  exec c.helpCommand == c.expectedExitCode

/-- The URL send attempts of the installPrereq probe fan-out (part_002 lines
156-166): one goroutine runs per declared (check, prerequisite) pair, and each
goroutine whose IsPresent probe fails attempts to send its prerequisite's URL
on the channel `c`, all before its deferred wg.Done().  This list is the
multiset of attempted sends in declaration order; the actual send interleaving
is nondeterministic, but every later use of this list is order-insensitive
(its length, and its members after dedup-and-sort). -/
def collectedMissing (exec : List String → Int)
    (checksPrereqs : List (List CheckPrerequisite)) : List String :=
  checksPrereqs.flatMap fun ps =>
    (ps.filter fun p => ! p.IsPresent exec).map CheckPrerequisite.url

/-- The dedup-and-sort of installPrereq's drain loop (part_002 lines 168-183)
applied to the sent URLs: deduplicated through a `map[string]bool` and sorted
with `sort.Strings`.  This is what the drain loop produces when — and only
when — every send completed; whether the sends complete at all is governed by
the channel capacity, see `resolveMissingPrereqs`. -/
def missingPrereqURLs (exec : List String → Int)
    (checksPrereqs : List (List CheckPrerequisite)) : List String :=
  List.insertionSort (fun a b => a ≤ b) (collectedMissing exec checksPrereqs).dedup

/-- The complete probe fan-in of installPrereq (part_002 lines 153-183).  The
channel is created as `c := make(chan string, len(enabledChecks))` — one
capacity slot per enabled check — yet one goroutine runs per declared (check,
prerequisite) pair, each sending one URL when its prerequisite is missing,
before its deferred wg.Done(); the channel is only received from after
wg.Wait().  Hence if the number of missing (check, prerequisite) pairs exceeds
the number of enabled checks, a send blocks forever, the WaitGroup never
completes and installPrereq never returns (`none`); otherwise every sent URL
is buffered, wg.Wait() returns, and the drain loop's dedup-and-sort reports
the sorted distinct missing URLs. -/
def resolveMissingPrereqs (exec : List String → Int)
    (checksPrereqs : List (List CheckPrerequisite)) : Option (List String) :=
  if checksPrereqs.length < (collectedMissing exec checksPrereqs).length then none
  else some (missingPrereqURLs exec checksPrereqs)

/-! ## Prerequisite installation (src/unnamed/part_002 lines 184-205) -/

/-- The observable result of one `capture("go", "get", ...)` invocation: its
combined output and its error value (`nil` embedded as `none`). -/
structure FetchResult where
  out : String
  err : Option String

/-- Error text of `fmt.Errorf("prerequisites installation failed: %s", x)`. -/
def prereqFailMsg (s : String) : String :=
  "prerequisites installation failed: " ++ s

/-- The installation step of installPrereq for a nonempty list of missing
URLs (part_002 lines 190-204).  `fetch upgrade urls` is the result of
`capture` of `go get` (with `-u` when `upgrade` is true) on `urls`.  Returns
the list of invocations performed, in order, and the final error.  Source:

  out, _, err := capture(append([]string{"go", "get"}, urls...)...)
  if len(out) != 0 || err != nil {
    out, _, err = capture(append([]string{"go", "get", "-u"}, urls...)...)
  }
  if len(out) != 0 { return fmt.Errorf(...out...) }
  if err != nil { return fmt.Errorf(...err...) }
-/
def installMissing (fetch : Bool → List String → FetchResult)
    (urls : List String) : List (Bool × List String) × Option String :=
  let r1 := fetch false urls
  if r1.out = "" ∧ r1.err = none then
    ([(false, urls)], none)
  else
    let r2 := fetch true urls
    ([(false, urls), (true, urls)],
     if r2.out = "" then
       match r2.err with
       | some e => some (prereqFailMsg e)
       | none => none
     else some (prereqFailMsg r2.out))

/-! ## The check runner (src/unnamed/part_002 lines 225-273)

`callRun` measures one check: it produces the error of `check.Run()` and the
elapsed `time.Duration` (int64 nanoseconds).  The runner is embedded over the
list of these per-check observations (`CheckRun` below), one per enabled
check, plus the total wall-clock duration observed at the end. -/

def nsPerSec : Int := 1000000000

/-- The observable outcome of `callRun` for one check: the check's name, the
error returned by Run() (none for success) and the measured duration in
nanoseconds. -/
structure CheckRun where
  name : String
  runError : Option String
  durationNs : Nat

/-- The budget-failure text of `fmt.Errorf("check %s took %1.2fs", ...)`;
the float formatting of seconds is abstracted to the raw nanosecond count. -/
def budgetMsg (c : CheckRun) : String :=
  "check " ++ c.name ++ " took " ++ toString c.durationNs ++ "ns"

/-- The errors one check's goroutine sends on the `errs` channel (part_002
lines 243-256): the Run() error when non-nil, then the synthetic budget
failure when `duration > time.Duration(max)*time.Second` — independently of
whether Run() succeeded. -/
def checkErrors (maxDuration : Int) (c : CheckRun) : List String :=
  (match c.runError with
   | some e => [e]
   | none => []) ++
  (if (c.durationNs : Int) > maxDuration * nsPerSec then [budgetMsg c] else [])

/-- The result of `run`. -/
inductive RunResult where
  /-- `run` never returns: a goroutine is blocked forever sending on the full
  `errs` channel, so the WaitGroup never completes. -/
  | deadlocked
  /-- `run` returned nil. -/
  | ok
  /-- `run` returned `fmt.Errorf("checks failed in %1.2fs", ...)` carrying the
  total wall-clock duration (nanoseconds; float formatting abstracted). -/
  | failed (totalNs : Nat)
deriving DecidableEq

/-- run (part_002 lines 236-273).  The channel `errs` is created with capacity
`len(enabledChecks)` and is only received from after `wg.Wait()`; each check's
goroutine performs all its sends (up to two: Run() error and budget error)
before calling `wg.Done()`.  Hence: if the total number of sent errors exceeds
the capacity, some send blocks forever and `run` never returns (deadlock);
otherwise every send completes, `wg.Wait()` returns, and the drain loop reads
every sent error, returning nil exactly when none was sent and otherwise the
aggregate "checks failed" error with the total wall-clock duration. -/
def runChecks (maxDuration : Int) (outcomes : List CheckRun) (totalNs : Nat) :
    RunResult :=
  let errs := outcomes.foldl (fun acc c => acc ++ checkErrors maxDuration c) []
  if outcomes.length < errs.length then RunResult.deadlocked
  else if errs.isEmpty then RunResult.ok
  else RunResult.failed totalNs

/-! ## Concrete instances used to evaluate the definitions -/

/-- A version string for instantiating `New` in closed statements. -/
def someVersion : String := "0.4.7"

/-- A mode name outside the four-entry mode map of any default Config. -/
def unknownMode : Mode := "nightly"

/-- A Config whose single mode carries a negative MaxDuration (legal for the
Go `int`-typed `max_duration` field). -/
def cNeg : Config :=
  { minVersion := ""
    modes := [(PreCommit, { checks := [], maxDuration := -1 })]
    ignorePatterns := [] }

/-- A mode-name string outside the fixed enumeration. -/
def badModeName : String := "pre-flight"

/-- A registry over `Nat`-valued checks for exercising `checksUnmarshalYAML`. -/
def natFactoryZero : Unit → Nat := fun _ => 0

def natRegistry : List (String × (Unit → Nat)) := [("build", natFactoryZero)]

def natMarshal : Nat → Except String Nat := fun r => Except.ok r

def natApply : Nat → Nat → Except String Nat := fun b c => Except.ok (b + c)

def natId : Nat → Nat := fun r => r

def natAdd : Nat → Nat → Nat := fun b c => b + c

/-- A fetch whose first, non-upgrade invocation is silent and succeeds. -/
def fetchClean : Bool → List String → FetchResult := fun _ _ => ⟨"", none⟩

/-- A fetch that always produces output. -/
def fetchNoisy : Bool → List String → FetchResult := fun _ _ => ⟨"boom", none⟩

/-- A URL list for exercising `installMissing`. -/
def someURLs : List String := ["example.com/tool"]

/-- A check observation that both returns a Run() error and exceeds a 1-second
budget (2 seconds measured). -/
def doubleFailure : CheckRun :=
  { name := "slow", runError := some ("build failed"), durationNs := 2000000000 }

/-- A probe environment in which every probe command exits with 127 (command
not found), matching no declared expected exit code below. -/
def probeFailExec : List String → Int := fun _ => 127

/-- A single enabled check declaring two prerequisites (as a CustomCheck's
Prerequisites list can, part_000 lines 129-131), both of whose probes expect
exit code 2. -/
def twoMissingPrereqs : List (List CheckPrerequisite) :=
  [[{ helpCommand := ["errcheck", "-h"], expectedExitCode := 2,
      url := "github.com/kisielk/errcheck" },
    { helpCommand := ["golint", "-h"], expectedExitCode := 2,
      url := "github.com/golang/lint/golint" }]]

/-- The CI defaults reuse the pre-push checks except that the coverage check
has UseCoveralls switched on; this function states that relation. -/
def enableCoveralls : Check → Check
  | Check.coverage _ g d pd => Check.coverage true g d pd
  | c => c

/-! ## Helper lemmas -/

/-- The inner append loop of EnabledChecks factors its accumulator out front. -/
theorem foldl_append_factor :
    ∀ (kvs : List (String × List Check)) (out : List Check),
    kvs.foldl (fun o kv => o ++ kv.2) out
      = out ++ kvs.foldl (fun o kv => o ++ kv.2) []
  | [], out => by simp
  | kv :: kvs, out => by
    simp only [List.foldl_cons, List.nil_append]
    rw [foldl_append_factor kvs (out ++ kv.2), foldl_append_factor kvs kv.2,
      List.append_assoc]

/-- First component of the EnabledChecks fold: the checks of each visited mode
are appended in order after the accumulator. -/
theorem enabledChecks_foldl_fst (c : Config) :
    ∀ (modes : List Mode) (acc : List Check × Int),
    (modes.foldl (enabledStep c) acc).1
      = acc.1 ++ ((modes.map fun m => (c.modeSettings m).allChecks).flatten)
  | [], acc => by simp
  | m :: ms, acc => by
    rw [List.foldl_cons, enabledChecks_foldl_fst c ms (enabledStep c acc m)]
    show (c.modeSettings m).checks.foldl (fun o kv => o ++ kv.2) acc.1 ++ _ = _
    rw [foldl_append_factor]
    simp [Settings.allChecks, List.append_assoc]

/-- Second component of the EnabledChecks fold: the running maximum only
depends on the visited modes' MaxDuration values. -/
theorem enabledChecks_foldl_snd (c : Config) :
    ∀ (modes : List Mode) (acc : List Check × Int),
    (modes.foldl (enabledStep c) acc).2
      = modes.foldl
          (fun a m => if (c.modeSettings m).maxDuration > a
                      then (c.modeSettings m).maxDuration else a) acc.2
  | [], _ => rfl
  | m :: ms, acc => by
    rw [List.foldl_cons, enabledChecks_foldl_snd c ms (enabledStep c acc m),
      List.foldl_cons]
    rfl

/-- The conditional update of the running maximum is the binary max. -/
theorem ifGt_eq_max (a b : Int) : (if b > a then b else a) = max a b := by
  rcases le_or_lt b a with h | h
  · rw [if_neg (not_lt.mpr h), max_eq_left h]
  · rw [if_pos h, max_eq_right h.le]

/-- Bind of an Except error short-circuits. -/
theorem except_bind_error {ε α β : Type} (msg : ε) (k : α → Except ε β) :
    (Except.error msg >>= k) = Except.error msg := rfl

/-- Bind of an Except success applies the continuation. -/
theorem except_bind_ok {ε α β : Type} (a : α) (k : α → Except ε β) :
    (Except.ok a >>= k) = k a := rfl

/-- Pure of the Except monad is the ok constructor. -/
theorem except_pure {ε α : Type} (a : α) : (pure a : Except ε α) = Except.ok a := rfl

/-- Splitting the Checks.UnmarshalYAML fold after a successfully decoded
prefix. -/
theorem checksUnmarshal_append {CheckV RawData Bytes : Type}
    (kc : List (String × (Unit → CheckV)))
    (marshal : RawData → Except String Bytes)
    (applyCfg : Bytes → CheckV → Except String CheckV) :
    ∀ (l₁ l₂ : List (String × List RawData)) (acc m : List (String × List CheckV)),
    l₁.foldlM (checksDecodeStep kc marshal applyCfg) acc = Except.ok m →
    (l₁ ++ l₂).foldlM (checksDecodeStep kc marshal applyCfg) acc
      = l₂.foldlM (checksDecodeStep kc marshal applyCfg) m
  | [], l₂, acc, m => by
    intro h
    rw [List.foldlM_nil, except_pure] at h
    cases h
    rw [List.nil_append]
  | e :: l₁, l₂, acc, m => by
    intro h
    rw [List.foldlM_cons] at h
    cases hstep : checksDecodeStep kc marshal applyCfg acc e with
    | error msg =>
      rw [hstep, except_bind_error] at h
      exact Except.noConfusion h
    | ok acc' =>
      rw [hstep, except_bind_ok] at h
      rw [List.cons_append, List.foldlM_cons, hstep, except_bind_ok]
      exact checksUnmarshal_append kc marshal applyCfg l₁ l₂ acc' m h

/-- decodeBlocks with a total marshal/apply pair configures one fresh factory
instance per raw block. -/
theorem decodeBlocks_total {CheckV RawData Bytes : Type} (f : Unit → CheckV)
    (mf : RawData → Bytes) (g : Bytes → CheckV → CheckV) :
    ∀ blocks : List RawData,
    decodeBlocks f (fun r => Except.ok (mf r)) (fun b c => Except.ok (g b c)) blocks
      = Except.ok (blocks.map fun b => g (mf b) (f ()))
  | [] => rfl
  | b :: bs => by
    simp [decodeBlocks, decodeBlocks_total f mf g bs]

/-- Appending to the sole entry of a singleton association map. -/
theorem appendEntry_extend {CheckV : Type} (k : String) (v : CheckV)
    (vs : List CheckV) : appendEntry [(k, vs)] k v = [(k, vs ++ [v])] := by
  simp [appendEntry]

/-- Folding appendEntry over a singleton association map accumulates at its
sole key. -/
theorem foldl_appendEntry_single {CheckV : Type} (k : String) :
    ∀ (cs vs : List CheckV),
    cs.foldl (fun m c => appendEntry m k c) [(k, vs)] = [(k, vs ++ cs)]
  | [], vs => by simp
  | c :: cs, vs => by
    rw [List.foldl_cons, appendEntry_extend, foldl_appendEntry_single k cs (vs ++ [c])]
    simp

/-- Folding appendEntry over the empty map produces a single entry holding all
the folded values. -/
theorem foldl_appendEntry_nil {CheckV : Type} (k : String) (c0 : CheckV)
    (cs : List CheckV) :
    (c0 :: cs).foldl (fun m c => appendEntry m k c) [] = [(k, c0 :: cs)] := by
  rw [List.foldl_cons,
    show appendEntry ([] : List (String × List CheckV)) k c0 = [(k, [c0])] from rfl,
    foldl_appendEntry_single]
  simp

/-! ## Claim theorems -/

/-- C2 (counterexample): the claim "the effective max-duration equals the
maximum of the MaxDuration values configured for the requested modes" fails on
the Config `cNeg` whose single requested mode pre-commit is configured with
MaxDuration -1 (a value the Go `int` field admits): the maximum of the
configured values [-1] is -1, yet EnabledChecks returns 0, because its running
maximum starts at 0. -/
theorem enabledChecks_maxDuration_neg_counterexample :
    (cNeg.EnabledChecks [PreCommit]).2 = 0
    ∧ ([PreCommit].map fun m => (cNeg.modeSettings m).maxDuration) = [-1]
    ∧ (cNeg.EnabledChecks [PreCommit]).2 ≠ -1 := by
  decide

/-- C2 (amended): for every Config and every list of requested modes, the
effective max-duration returned by EnabledChecks equals the maximum of 0 and
the MaxDuration values configured for the requested modes (a left fold of the
binary max starting at 0) — in particular their maximum, not their sum,
whenever any requested mode has a nonnegative budget. -/
theorem enabledChecks_maxDuration_fold_max (c : Config) (modes : List Mode) :
    (c.EnabledChecks modes).2
      = (modes.map fun m => (c.modeSettings m).maxDuration).foldl max 0 := by
  unfold Config.EnabledChecks
  rw [enabledChecks_foldl_snd, List.foldl_map]
  congr 1
  funext a m
  exact ifGt_eq_max a _

/-- C3: the check sequence returned by EnabledChecks is the concatenation, in
request order, of every check instance under every requested mode (each mode's
instances in the fixed order of its check map), and a check instance shared by
two requested modes is not deduplicated: its occurrences add up. -/
theorem enabledChecks_concat_of_modes :
    ∀ (c : Config) (modes : List Mode),
    ((c.EnabledChecks modes).1
        = (modes.map fun m => (c.modeSettings m).allChecks).flatten)
    ∧ ∀ (m₁ m₂ : Mode) (ch : Check),
        ((c.EnabledChecks [m₁, m₂]).1).count ch
          = ((c.modeSettings m₁).allChecks).count ch
            + ((c.modeSettings m₂).allChecks).count ch := by
  intro c modes
  constructor
  · unfold Config.EnabledChecks
    rw [enabledChecks_foldl_fst]
    simp
  · intro m₁ m₂ ch
    unfold Config.EnabledChecks
    rw [enabledChecks_foldl_fst]
    simp [List.count_append]

/-- C4: on the default Config produced by New (any version string),
EnabledChecks for the single mode pre-commit returns exactly the build check,
the gofmt check and the test check with -short (3 checks) with effective
max-duration 5, and EnabledChecks for the pair pre-commit, pre-push returns
those followed by pre-push's goimports, coverage and test checks (6 checks,
not deduplicated) with effective max-duration 15. -/
theorem default_config_enabledChecks_eval :
    ∀ v : String,
    (New v).EnabledChecks [PreCommit]
        = ([Check.build [], Check.gofmt, Check.test (["-short"])], 5)
    ∧ (New v).EnabledChecks [PreCommit, PrePush]
        = ([Check.build [], Check.gofmt, Check.test (["-short"]),
            Check.goimports, Check.coverage false ⟨50, 100⟩ ⟨0, 0⟩ [],
            Check.test (["-v", "-race"])], 15) :=
  fun _ => ⟨rfl, rfl⟩

/-- C5 (counterexample): the continuous-integration mode's default check set
is NOT the pre-push set plus a Build and a Format check: pre-push's coverage
check (UseCoveralls false) is a pre-push check that does not occur among the
continuous-integration checks, whose coverage check has UseCoveralls true. -/
theorem default_config_ci_not_prepush_superset :
    (Check.coverage false ⟨50, 100⟩ ⟨0, 0⟩ [])
        ∈ ((New someVersion).modeSettings PrePush).allChecks
    ∧ (Check.coverage false ⟨50, 100⟩ ⟨0, 0⟩ [])
        ∉ ((New someVersion).modeSettings ContinuousIntegration).allChecks := by
  decide

/-- C5 (amended): in the default Config produced by New, the
continuous-integration mode's check set equals a Build check and a Format
(gofmt) check followed by the pre-push mode's check set with the coverage
check's UseCoveralls flag switched on, with budget 120 seconds, and none of
the lint mode's checks is included in any other mode's set. -/
theorem default_config_ci_prepush_lint :
    ∀ v : String,
    ((New v).modeSettings ContinuousIntegration).allChecks
        = [Check.build [], Check.gofmt]
          ++ (((New v).modeSettings PrePush).allChecks.map enableCoveralls)
    ∧ ((New v).modeSettings ContinuousIntegration).maxDuration = 120
    ∧ (((New v).modeSettings Lint).allChecks.all fun ch =>
        !(((New v).modeSettings PreCommit).allChecks.contains ch)
        && !(((New v).modeSettings PrePush).allChecks.contains ch)
        && !(((New v).modeSettings ContinuousIntegration).allChecks.contains ch))
      = true :=
  fun _ => ⟨rfl, rfl, rfl⟩

/-- C6: decoding a mode name fails, with an error naming that value, for every
string outside the fixed enumeration pre-commit, pre-push,
continuous-integration, lint, and succeeds, assigning the corresponding Mode,
for each of the four known names. -/
theorem mode_unmarshal_spec :
    (∀ s : String, s ∉ AllModes →
      Mode.unmarshalYAML s = Except.error (invalidModeMsg s))
    ∧ (∀ m : Mode, m ∈ AllModes → Mode.unmarshalYAML m = Except.ok m) := by
  constructor
  · intro s h
    simp [Mode.unmarshalYAML, h]
  · intro m h
    simp [Mode.unmarshalYAML, h]

/-- C6 (witness): the unknown name "pre-flight" is rejected with the error
naming it, and the known name pre-commit decodes to itself. -/
theorem mode_unmarshal_spec_witness :
    Mode.unmarshalYAML badModeName = Except.error (invalidModeMsg badModeName)
    ∧ Mode.unmarshalYAML PreCommit = Except.ok PreCommit :=
  ⟨mode_unmarshal_spec.1 badModeName (by decide),
   mode_unmarshal_spec.2 PreCommit (by decide)⟩

/-- C10: for every Config, EnabledChecks on the empty mode list returns the
empty check sequence with effective max-duration 0, and likewise whenever none
of the requested modes has an entry in the Config's mode map; EnabledChecks is
a total function (the Go signature has no error result), so it never fails. -/
theorem enabledChecks_empty_or_unknown :
    ∀ c : Config,
    c.EnabledChecks [] = ([], 0)
    ∧ ∀ modes : List Mode, (∀ m, m ∈ modes → c.modes.lookup m = none) →
        c.EnabledChecks modes = ([], 0) := by
  intro c
  refine ⟨rfl, ?_⟩
  intro modes
  induction modes with
  | nil => intro _; rfl
  | cons m ms ih =>
    intro h
    have hm : c.modes.lookup m = none := h m (List.mem_cons_self m ms)
    have hstep : enabledStep c ([], 0) m = ([], 0) := by
      simp [enabledStep, Config.modeSettings, hm]
    unfold Config.EnabledChecks
    rw [List.foldl_cons, hstep]
    exact ih fun x hx => h x (List.mem_cons_of_mem m hx)

/-- C10 (witness): the default Config has no entry for the mode name
"nightly", and EnabledChecks on it returns the empty sequence and 0. -/
theorem enabledChecks_empty_or_unknown_witness :
    (New someVersion).EnabledChecks [unknownMode] = ([], 0) :=
  (enabledChecks_empty_or_unknown (New someVersion)).2 [unknownMode] (by decide)

/-- C1 (code bug): on a single enabled check whose Run() fails and whose
measured duration (2s) exceeds the 1-second budget, two failures are
collected, which exceeds the capacity (one per check) of the `errs` channel;
the second send blocks forever, the WaitGroup never completes, and `run` never
returns — in particular it does not return the aggregate error the claim
describes. -/
theorem run_deadlocks_when_failures_exceed_capacity :
    runChecks 1 [doubleFailure] 2000000000 = RunResult.deadlocked
    ∧ checkErrors 1 doubleFailure = ["build failed", budgetMsg doubleFailure]
    ∧ runChecks 1 [doubleFailure] 2000000000 ≠ RunResult.ok
    ∧ ∀ t : Nat, runChecks 1 [doubleFailure] 2000000000 ≠ RunResult.failed t :=
  ⟨rfl, rfl, by decide, fun t => by
    rw [show runChecks 1 [doubleFailure] 2000000000 = RunResult.deadlocked from rfl]
    simp⟩

/-- C7: decoding a checks block containing a check-type name with no registry
entry fails with an error naming that exact type string (given that the
entries before it decoded successfully), and for a registered check-type name
one fresh check instance is constructed via the registry's factory — and the
yaml round trip applied to it — for each raw configuration block under that
name.  The registry, and the yaml library's marshal/unmarshal, are the
parameters `kc`, `marshal`/`mf` and `applyCfg`/`g`. -/
theorem checks_unmarshal_spec :
    ∀ {CheckV RawData Bytes : Type}
      (kc : List (String × (Unit → CheckV)))
      (marshal : RawData → Except String Bytes)
      (applyCfg : Bytes → CheckV → Except String CheckV)
      (pre rest : List (String × List RawData)) (name : String)
      (blocks : List RawData) (m : List (String × List CheckV)),
    (checksUnmarshalYAML kc marshal applyCfg pre = Except.ok m →
      List.lookup name kc = none →
      checksUnmarshalYAML kc marshal applyCfg (pre ++ (name, blocks) :: rest)
        = Except.error (unknownCheckMsg name))
    ∧ ∀ (mf : RawData → Bytes) (g : Bytes → CheckV → CheckV) (f : Unit → CheckV),
        List.lookup name kc = some f → blocks ≠ [] →
        checksUnmarshalYAML kc (fun r => Except.ok (mf r))
            (fun b c => Except.ok (g b c)) [(name, blocks)]
          = Except.ok [(name, blocks.map fun b => g (mf b) (f ()))] := by
  intro CheckV RawData Bytes kc marshal applyCfg pre rest name blocks m
  constructor
  · intro hpre hlook
    unfold checksUnmarshalYAML at hpre ⊢
    rw [checksUnmarshal_append kc marshal applyCfg pre ((name, blocks) :: rest) [] m hpre]
    simp only [List.foldlM_cons, checksDecodeStep, hlook, except_bind_error]
  · intro mf g f hlook hne
    cases blocks with
    | nil => exact absurd rfl hne
    | cons b bs =>
      unfold checksUnmarshalYAML
      simp only [List.foldlM_cons, List.foldlM_nil, checksDecodeStep, hlook,
        decodeBlocks_total, except_bind_ok, except_pure, List.map_cons,
        foldl_appendEntry_nil]

/-- C7 (witness): over a Nat-valued one-entry registry, an unregistered name
is rejected with the error naming it, and two raw blocks under the registered
name yield two fresh factory instances with the round trip applied. -/
theorem checks_unmarshal_spec_witness :
    checksUnmarshalYAML natRegistry natMarshal natApply
        ([] ++ ("gadget", [(5 : Nat)]) :: [])
      = Except.error (unknownCheckMsg ("gadget"))
    ∧ checksUnmarshalYAML natRegistry (fun r => Except.ok (natId r))
        (fun b c => Except.ok (natAdd b c)) [("build", [(2 : Nat), 3])]
      = Except.ok [("build", [(2 : Nat), 3].map fun b => natAdd (natId b) (natFactoryZero ()))] :=
  ⟨(checks_unmarshal_spec natRegistry natMarshal natApply [] [] "gadget"
      [(5 : Nat)] []).1 rfl rfl,
   (checks_unmarshal_spec natRegistry natMarshal natApply [] [] "build"
      [(2 : Nat), 3] []).2 natId natAdd natFactoryZero rfl (by decide)⟩

/-- Drain-phase properties of installPrereq's dedup-and-sort: the report
derived from the sent URLs has no duplicates, is sorted, and contains a URL
exactly when some declared prerequisite with that URL failed its probe; a
prerequisite whose observed exit code equals its expected code contributes
nothing.  Whether this report is ever produced is a separate question — see
`resolveMissingPrereqs` and the C8 theorem below for the channel-capacity
deadlock that can prevent it. -/
theorem missing_prereq_urls_spec :
    ∀ (exec : List String → Int) (cs : List (List CheckPrerequisite)),
    (missingPrereqURLs exec cs).Nodup
    ∧ List.Sorted (fun a b => a ≤ b) (missingPrereqURLs exec cs)
    ∧ ∀ u : String, u ∈ missingPrereqURLs exec cs ↔
        ∃ ps, ps ∈ cs ∧ ∃ p, p ∈ ps ∧ p.url = u
          ∧ exec p.helpCommand ≠ p.expectedExitCode := by
  intro exec cs
  refine ⟨?_, ?_, ?_⟩
  · exact ((List.perm_insertionSort _ _).nodup_iff).mpr (List.nodup_dedup _)
  · exact List.sorted_insertionSort _ _
  · intro u
    simp only [missingPrereqURLs, List.mem_insertionSort, List.mem_dedup,
      collectedMissing, List.mem_flatMap, List.mem_map, List.mem_filter,
      CheckPrerequisite.IsPresent, Bool.not_eq_true', beq_eq_false_iff_ne, ne_eq]
    tauto

/-- When the sends fit the channel — at most as many missing (check,
prerequisite) pairs as enabled checks — installPrereq's fan-in completes and
reports the sorted deduplicated missing URLs. -/
theorem resolveMissingPrereqs_eq_of_no_overflow (exec : List String → Int)
    (cs : List (List CheckPrerequisite))
    (h : ¬ cs.length < (collectedMissing exec cs).length) :
    resolveMissingPrereqs exec cs = some (missingPrereqURLs exec cs) := by
  simp [resolveMissingPrereqs, h]

/-- C8 (code bug): on a single enabled check declaring two prerequisites whose
probes both observe exit code 127 against an expected code of 2, both
prerequisites are missing, so two URL sends are attempted against a `chan
string` whose capacity is the number of enabled checks, namely 1; the second
send blocks forever, the WaitGroup never completes, and installPrereq never
returns — nothing is reported, whereas the claim says each missing
prerequisite is reported missing exactly once, in sorted order. -/
theorem prereq_resolution_deadlocks_when_missing_exceed_checks :
    resolveMissingPrereqs probeFailExec twoMissingPrereqs = none
    ∧ (collectedMissing probeFailExec twoMissingPrereqs).length = 2
    ∧ twoMissingPrereqs.length = 1
    ∧ (collectedMissing probeFailExec twoMissingPrereqs).dedup
        = ["github.com/kisielk/errcheck", "github.com/golang/lint/golint"] := by
  decide

/-- C9: installing missing prerequisites invokes the fetch once without the
upgrade flag for all missing locators; if and only if that invocation produced
output or a non-nil error is it retried, exactly once, with the upgrade flag;
if the retry still produces output the installation fails with that output as
the diagnostic; if the first invocation is silent and succeeds, no upgrade
invocation occurs and installation succeeds. -/
theorem install_missing_spec :
    ∀ (fetch : Bool → List String → FetchResult) (urls : List String),
    ((installMissing fetch urls).1.head? = some (false, urls))
    ∧ ((fetch false urls).out = "" ∧ (fetch false urls).err = none →
        installMissing fetch urls = ([(false, urls)], none))
    ∧ (¬((fetch false urls).out = "" ∧ (fetch false urls).err = none) →
        (installMissing fetch urls).1 = [(false, urls), (true, urls)]
        ∧ ((fetch true urls).out ≠ "" →
            (installMissing fetch urls).2
              = some (prereqFailMsg (fetch true urls).out))) := by
  intro fetch urls
  by_cases h : (fetch false urls).out = "" ∧ (fetch false urls).err = none
  · refine ⟨?_, fun _ => ?_, fun hn => absurd h hn⟩
    · simp [installMissing, h]
    · simp [installMissing, h]
  · refine ⟨?_, fun hc => absurd hc h, fun _ => ⟨?_, fun ho => ?_⟩⟩
    · simp [installMissing, h]
    · simp [installMissing, h]
    · simp [installMissing, h, ho]

/-- C9 (witness): a silent, successful first fetch installs without an upgrade
retry; a fetch that always prints "boom" fails with that output as the
diagnostic. -/
theorem install_missing_spec_witness :
    installMissing fetchClean someURLs = ([(false, someURLs)], none)
    ∧ (installMissing fetchNoisy someURLs).2 = some (prereqFailMsg ("boom")) :=
  ⟨(install_missing_spec fetchClean someURLs).2.1 ⟨rfl, rfl⟩,
   ((install_missing_spec fetchNoisy someURLs).2.2 (by decide)).2 (by decide)⟩

end PreCommitGo
